import Mathlib

/-!
Verification of the result-aggregation engine of the docker filesystem
benchmark repository (`scripts/aggregate_results.py`) together with the
parts of the iostat adapter (`scripts/parse_iostat.py`) that the claims
refer to.

Numbers are modelled as exact rationals in lowest terms (`Frac`, an
executable integer-pair rational); Python `round(x, n)` is modelled by
`pyRound`, rounding to `n` decimal places with ties going to the even
choice.  JSON scalar values are modelled by `JVal` (a number, a string,
or a flat list of numbers — the only list shape the adapters produce).
Python dictionaries are modelled as insertion-ordered association lists.
-/

/-- An executable rational: numerator and (positive) denominator, kept in
lowest terms by the smart constructors, so that structural equality is
rational equality on every value the model constructs. -/
structure Frac where
  n : ℤ
  d : ℕ
deriving DecidableEq, Repr

instance (k : ℕ) : OfNat Frac k := ⟨⟨(k : ℤ), 1⟩⟩

/-- Build the reduced fraction `n / d` (for `d ≠ 0`). -/
def qnorm (n : ℤ) (d : ℕ) : Frac :=
  let g := n.natAbs.gcd d
  if n < 0 then ⟨-((n.natAbs / g : ℕ) : ℤ), d / g⟩ else ⟨((n.natAbs / g : ℕ) : ℤ), d / g⟩

/-- The reduced fraction `a / b` for integer literals. -/
def mkQ (a : ℤ) (b : ℕ) : Frac := qnorm a b

def Frac.add (a b : Frac) : Frac := qnorm (a.n * b.d + b.n * a.d) (a.d * b.d)

def Frac.sub (a b : Frac) : Frac := qnorm (a.n * b.d - b.n * a.d) (a.d * b.d)

def Frac.mul (a b : Frac) : Frac := qnorm (a.n * b.n) (a.d * b.d)

/-- Division; division by zero yields `0` (unreachable in the model). -/
def Frac.div (a b : Frac) : Frac :=
  if b.n = 0 then ⟨0, 1⟩
  else if b.n < 0 then qnorm (-(a.n * b.d)) (a.d * b.n.natAbs)
  else qnorm (a.n * b.d) (a.d * b.n.natAbs)

/-- Floor of a fraction. -/
def Frac.floor (a : Frac) : ℤ := Int.fdiv a.n a.d

/-- Sum of a list of fractions. -/
def qsum (l : List Frac) : Frac := l.foldr Frac.add 0

/-- Arithmetic mean as computed by `statistics.mean` (exact). -/
def qmean (l : List Frac) : Frac := (qsum l).div ⟨(l.length : ℤ), 1⟩

/-- Round a fraction to the nearest integer, ties to even
(the tie rule of Python `round`). -/
def rhalfEven (x : Frac) : ℤ :=
  if x.sub ⟨x.floor, 1⟩ = mkQ 1 2 then
    (if x.floor % 2 = 0 then x.floor else x.floor + 1)
  else (x.add (mkQ 1 2)).floor

/-- Python `round(x, nd)` on exact rationals. -/
def pyRound (nd : ℕ) (x : Frac) : Frac :=
  Frac.div ⟨rhalfEven (x.mul ⟨(10 : ℤ) ^ nd, 1⟩), 1⟩ ⟨(10 : ℤ) ^ nd, 1⟩

/-- A JSON-ish value as produced by the benchmark/monitoring adapters:
a number, a string, or a flat list of numbers (time-series payloads). -/
inductive JVal : Type where
  | num : Frac → JVal
  | str : String → JVal
  | arr : List Frac → JVal
deriving DecidableEq, Repr

/-- A JSON-object field mapping, insertion ordered. -/
abbrev JMap := List (String × JVal)

/-- Accumulated per-key value sequences (`defaultdict(list)` in the source). -/
abbrev KV := List (String × List JVal)

/-- Python `isinstance(v, (int, float))`. -/
def JVal.isNum : JVal → Bool
  | .num _ => true
  | _ => false

/-- The numeric elements of a value list, in order
(`[v for v in values if isinstance(v, (int, float))]`). -/
def numsOf (vs : List JVal) : List Frac :=
  vs.filterMap fun v => match v with
    | .num q => some q
    | _ => none

/-- Per-key merge of the plot group: the body of the loop of
`calculate_average` — drop non-numeric values, omit the key when none
remain, return a single value unchanged, otherwise `round(mean, 4)`. -/
def mergePlotVals (vs : List JVal) : Option JVal :=
  match numsOf vs with
  | [] => none
  | [q] => some (JVal.num q)
  | q :: q2 :: rest => some (JVal.num (pyRound 4 (qmean (q :: q2 :: rest))))

/-- `calculate_average` of `aggregate_results.py`: reduce each accumulated
value list to its (rounded) mean, keeping dictionary order. -/
def calculate_average (m : KV) : JMap :=
  m.filterMap fun p => (mergePlotVals p.2).map fun v => (p.1, v)

/-- Per-key merge of the table group: the body of the loop of
`aggregate_table_data` — skip empty lists; if the first value is numeric,
`round(mean(numeric values), 4)`; otherwise the first value unchanged. -/
def mergeTableVals (vs : List JVal) : Option JVal :=
  match vs with
  | [] => none
  | v :: _ =>
    if v.isNum then
      match numsOf vs with
      | [] => none
      | q :: rest => some (JVal.num (pyRound 4 (qmean (q :: rest))))
    else some v

/-- `aggregate_table_data` of `aggregate_results.py`. -/
def aggregate_table_data (m : KV) : JMap :=
  m.filterMap fun p => (mergeTableVals p.2).map fun v => (p.1, v)

/-- Python `str.startswith`, on the character sequence. -/
def strStartsWith (s pre : String) : Bool := pre.data.isPrefixOf s.data

/-- `PARSER_MAP`: ordered prefix → adapter-script rules. -/
def PARSER_MAP : List (String × String) :=
  [("sysbench-oltp", "parse_sysbench.py"),
   ("postgres-pgbench", "parse_pgbench.py"),
   ("webserver-bench", "parse_wrk.py"),
   ("fio-", "parse_fio.py")]

/-- `get_parser_for_benchmark`: first prefix match wins, `None` otherwise. -/
def get_parser_for_benchmark (benchmark_name : String) : Option String :=
  (PARSER_MAP.find? fun p => strStartsWith benchmark_name p.1).map
    fun p => "scripts/" ++ p.2

/-- The record an adapter invocation decodes to (the engine probes the
keys `plot`, `table` and `series` with `in`, hence `Option` fields). -/
structure ParserOutput where
  version : String
  plot : Option JMap
  table : Option JMap
  series : Option JMap
deriving DecidableEq, Repr

/-- One run directory.  For each of the three per-run input files the
field is `none` when the file is absent, `some none` when the adapter
invocation failed or produced undecodable output (`run_parser` returned
`None`), and `some (some o)` when it decoded to `o`. -/
structure RunDir where
  name : String
  workload : Option (Option ParserOutput)
  docker : Option (Option ParserOutput)
  iostat : Option (Option ParserOutput)
deriving DecidableEq, Repr

/-- One configuration (filesystem) directory with its run directories,
in directory-listing order. -/
structure ConfigDir where
  name : String
  runs : List RunDir
deriving DecidableEq, Repr

/-- One benchmark directory with its configuration directories. -/
structure BenchmarkDir where
  name : String
  configs : List ConfigDir
deriving DecidableEq, Repr

/-- Collapse the two failure layers of a per-run adapter result. -/
def okOut : Option (Option ParserOutput) → Option ParserOutput
  | some (some d) => some d
  | _ => none

/-- Append one value to the list held at a key, creating the key at the
end on first use (`defaultdict(list)` + `append`). -/
def appendKV (m : KV) (k : String) (v : JVal) : KV :=
  match m with
  | [] => [(k, [v])]
  | p :: rest => if p.1 == k then (p.1, p.2 ++ [v]) :: rest else p :: appendKV rest k v

/-- Append every pair of an adapter mapping into an accumulator,
in mapping order. -/
def appendAll (m : KV) (ps : JMap) : KV :=
  ps.foldl (fun a p => appendKV a p.1 p.2) m

/-- The per-(benchmark, configuration) accumulator state of `main`:
the six `temp_data` groups plus the two `rep_data` series slots. -/
structure Accum where
  metrics_plot : KV
  metrics_table : KV
  monitoring_plot : KV
  monitoring_table : KV
  docker_plot : KV
  docker_table : KV
  docker_series : Option JMap
  iostat_series : Option JMap
deriving DecidableEq, Repr

/-- The empty accumulator. -/
def Accum.empty : Accum := ⟨[], [], [], [], [], [], none, none⟩

/-- Step 1 of the run loop of `main`: parse the workload file and append
its `plot`/`table` pairs into the metrics accumulators. -/
def processWorkload (acc : Accum) (r : RunDir) : Accum :=
  match okOut r.workload with
  | none => acc
  | some d =>
    let acc1 := match d.plot with
      | some m => { acc with metrics_plot := appendAll acc.metrics_plot m }
      | none => acc
    match d.table with
    | some m => { acc1 with metrics_table := appendAll acc1.metrics_table m }
    | none => acc1

/-- Step 2 of the run loop of `main`: parse docker stats, append every
`plot` pair into BOTH docker accumulators, and for the run literally
named `run_1` store the `series` payload verbatim. -/
def processDocker (acc : Accum) (r : RunDir) : Accum :=
  match okOut r.docker with
  | none => acc
  | some d =>
    let acc1 := match d.plot with
      | some m => { acc with docker_plot := appendAll acc.docker_plot m,
                             docker_table := appendAll acc.docker_table m }
      | none => acc
    if r.name == "run_1" then
      match d.series with
      | some s => { acc1 with docker_series := some s }
      | none => acc1
    else acc1

/-- Step 3 of the run loop of `main`: parse iostat, append every `table`
pair into BOTH monitoring accumulators, and for the run literally named
`run_1` store the `plot` payload (the time series) verbatim. -/
def processIostat (acc : Accum) (r : RunDir) : Accum :=
  match okOut r.iostat with
  | none => acc
  | some d =>
    let acc1 := match d.table with
      | some m => { acc with monitoring_plot := appendAll acc.monitoring_plot m,
                             monitoring_table := appendAll acc.monitoring_table m }
      | none => acc
    if r.name == "run_1" then
      match d.plot with
      | some s => { acc1 with iostat_series := some s }
      | none => acc1
    else acc1

/-- The whole body of the run loop of `main`, in source order. -/
def processRun (acc : Accum) (r : RunDir) : Accum :=
  processIostat (processDocker (processWorkload acc r) r) r

/-- Collect all runs of one configuration. -/
def collectRuns (runs : List RunDir) : Accum :=
  runs.foldl processRun Accum.empty

/-- The final per-(benchmark, configuration) node of the report. -/
structure Entry where
  metrics_plot : JMap
  metrics_table : JMap
  docker_plot : JMap
  docker_table : JMap
  docker_series : JMap
  iostat_plot : JMap
  iostat_table : JMap
  iostat_series : JMap
deriving DecidableEq, Repr

/-- The final-aggregation step of `main` for one pair: `calculate_average`
on the plot groups, `aggregate_table_data` on the table groups, and the
representative series (empty mapping when never captured). -/
def mkEntry (acc : Accum) : Entry :=
  ⟨calculate_average acc.metrics_plot,
   aggregate_table_data acc.metrics_table,
   calculate_average acc.docker_plot,
   aggregate_table_data acc.docker_table,
   acc.docker_series.getD [],
   calculate_average acc.monitoring_plot,
   aggregate_table_data acc.monitoring_table,
   acc.iostat_series.getD []⟩

/-- Whether any append ever touched this pair: exactly the condition for
`temp_data[benchmark][filesystem]` to have been created. -/
def Accum.touched (a : Accum) : Bool :=
  !a.metrics_plot.isEmpty || !a.metrics_table.isEmpty ||
  !a.monitoring_plot.isEmpty || !a.monitoring_table.isEmpty ||
  !a.docker_plot.isEmpty || !a.docker_table.isEmpty

/-- The `data` part of the report. -/
abbrev Report := List (String × List (String × Entry))

/-- Aggregate one configuration; `none` when no run contributed anything
(the pair never entered `temp_data`). -/
def buildConfig (cfg : ConfigDir) : Option (String × Entry) :=
  let acc := collectRuns cfg.runs
  if acc.touched then some (cfg.name, mkEntry acc) else none

/-- Aggregate one benchmark directory; `none` when no parser is mapped
or no configuration contributed anything. -/
def buildBenchmark (b : BenchmarkDir) : Option (String × List (String × Entry)) :=
  match get_parser_for_benchmark b.name with
  | none => none
  | some _ =>
    let cfgs := b.configs.filterMap buildConfig
    if cfgs.isEmpty then none else some (b.name, cfgs)

/-- The `report` dictionary that `main` assembles from the walk. -/
def buildReport (bs : List BenchmarkDir) : Report :=
  bs.filterMap buildBenchmark

/-- The `main` entry point of `aggregate_results.py` (renamed, since the
Lean name `main` is reserved for executables): `sys.exit(1)` when the
result root does not exist — no output is produced — otherwise the
assembled report, which is then written once. -/
def mainAggregate (root : Option (List BenchmarkDir)) : Except Nat Report :=
  match root with
  | none => Except.error 1
  | some bs => Except.ok (buildReport bs)

/-- Dictionary lookup on a JSON mapping. -/
def lookupV (m : JMap) (k : String) : Option JVal := List.lookup k m

/-- Accumulated value list at a key (empty when the key was never touched). -/
def lookupL (m : KV) (k : String) : List JVal := (List.lookup k m).getD []

/-- The `plot` pairs the workload adapter contributed for a run. -/
def workloadPlotPairs (r : RunDir) : JMap :=
  match okOut r.workload with
  | some d => d.plot.getD []
  | none => []

/-- The `table` pairs the workload adapter contributed for a run. -/
def workloadTablePairs (r : RunDir) : JMap :=
  match okOut r.workload with
  | some d => d.table.getD []
  | none => []

/-- The `plot` pairs the docker-monitoring adapter contributed for a run. -/
def dockerPlotPairs (r : RunDir) : JMap :=
  match okOut r.docker with
  | some d => d.plot.getD []
  | none => []

/-- The `table` pairs the io-monitoring adapter contributed for a run. -/
def iostatTablePairs (r : RunDir) : JMap :=
  match okOut r.iostat with
  | some d => d.table.getD []
  | none => []

/-- All values collected for a key across a run list, in collection
order: exactly the values of runs that produced the key, runs without
the key contributing nothing. -/
def collectedAt (f : RunDir → JMap) (runs : List RunDir) (k : String) : List JVal :=
  runs.flatMap fun r => ((f r).filter fun p => p.1 == k).map Prod.snd

/-- The docker `series` payload of a run, when its docker file parsed. -/
def dockerSeriesOf (r : RunDir) : Option JMap :=
  match okOut r.docker with
  | some d => d.series
  | none => none

/-- The iostat `plot` payload (its time series) of a run, when its
iostat file parsed. -/
def iostatSeriesOf (r : RunDir) : Option JMap :=
  match okOut r.iostat with
  | some d => d.plot
  | none => none

/-- The report entry stored under a benchmark and configuration name. -/
def entryAt (rep : Report) (b c : String) : Option Entry :=
  (List.lookup b rep).bind fun cfgs => List.lookup c cfgs

/-- A key mapping has no duplicate keys (true of every Python dict). -/
def keysNodup (m : KV) : Prop := (m.map Prod.fst).Nodup

/-!
Embedding of `parse_single_json_object` of `scripts/parse_iostat.py`.
The JSON input is modelled structurally: a `get` with a default is an
`Option` field read with `getD`.
-/

/-- One element of a `disk` statistics array (fields read via `.get`;
`r_s` stands for the `r/s` key and so on). -/
structure DiskEntry where
  disk_device : Option String
  r_s : Option Frac
  w_s : Option Frac
  rkB_s : Option Frac
  wkB_s : Option Frac
  r_await : Option Frac
  w_await : Option Frac
  util : Option Frac
deriving DecidableEq, Repr

/-- The `avg-cpu` record of one statistics entry. -/
structure CpuRec where
  user : Option Frac
  system : Option Frac
  iowait : Option Frac
  idle : Option Frac
deriving DecidableEq, Repr

/-- One element of the `statistics` array. -/
structure StatEntry where
  avg_cpu : Option CpuRec
  disk : Option (List DiskEntry)
deriving DecidableEq, Repr

/-- One element of the `hosts` array. -/
structure HostRec where
  sysname : Option String
  release : Option String
  nodename : Option String
  machine : Option String
  statistics : Option (List StatEntry)
deriving DecidableEq, Repr

/-- The `sysstat` object. -/
structure SysstatRec where
  hosts : Option (List HostRec)
deriving DecidableEq, Repr

/-- The decoded iostat JSON document (`sysstat` key optional). -/
structure IostatJson where
  sysstat : Option SysstatRec
deriving DecidableEq, Repr

/-- Numeric-list dictionaries (`plot_data`, `table_stats` and the inner
device dictionaries of the adapter). -/
abbrev KVQ := List (String × List Frac)

/-- Dictionary read with default `[]`. -/
def kvqGet (m : KVQ) (k : String) : List Frac := (List.lookup k m).getD []

/-- `m[k].append(v)` (for keys already present; creates the key at the
end otherwise). -/
def kvqApp (m : KVQ) (k : String) (v : Frac) : KVQ :=
  match m with
  | [] => [(k, [v])]
  | p :: rest => if p.1 == k then (p.1, p.2 ++ [v]) :: rest else p :: kvqApp rest k v

/-- `if k not in m: m[k] = []`. -/
def kvqEnsure (m : KVQ) (k : String) : KVQ :=
  if (List.lookup k m).isSome then m else m ++ [(k, [])]

/-- `m[k] = l` (for a key already present). -/
def kvqSet (m : KVQ) (k : String) (l : List Frac) : KVQ :=
  m.map fun p => if p.1 == k then (p.1, l) else p

/-- The `while len(l) < n: l.append(0.0)` padding loop. -/
def padTo (tgt : ℕ) (l : List Frac) : List Frac :=
  l ++ List.replicate (tgt - l.length) 0

/-- Python `re.search` of a trailing-digit pattern: the device name ends
in a digit (a partition such as `vdb1`). -/
def endsInDigit (s : String) : Bool :=
  match s.data.getLast? with
  | some c => c.isDigit
  | none => false

/-- The `parsed_metrics` dictionary built for the main disk, in
insertion order. -/
def parsedMetrics (d : DiskEntry) : List (String × Frac) :=
  [("read_iops", d.r_s.getD 0), ("write_iops", d.w_s.getD 0),
   ("read_kbps", d.rkB_s.getD 0), ("write_kbps", d.wkB_s.getD 0),
   ("read_await", d.r_await.getD 0), ("write_await", d.w_await.getD 0),
   ("util", d.util.getD 0)]

/-- The initial `plot_data` dictionary. -/
def initPlot : KVQ :=
  [("timestamp", []), ("cpu_user", []), ("cpu_system", []),
   ("cpu_iowait", []), ("cpu_idle", [])]

/-- The initial `table_stats` dictionary. -/
def initTable : KVQ :=
  [("cpu_user", []), ("cpu_system", []), ("cpu_iowait", []), ("cpu_idle", [])]

/-- The `{k: [] for k in parsed_metrics.keys()}` device-stats skeleton. -/
def devTableInit : KVQ :=
  [("read_iops", []), ("write_iops", []), ("read_kbps", []),
   ("write_kbps", []), ("read_await", []), ("write_await", []), ("util", [])]

/-- Appending one device metric to `plot_data`: ensure the key, pad to
one short of the timestamp count, then append the value. -/
def addDevMetric (pd : KVQ) (key : String) (v : Frac) : KVQ :=
  let pd1 := kvqEnsure pd key
  let tsLen := (kvqGet pd1 "timestamp").length
  kvqSet pd1 key (padTo (tsLen - 1) (kvqGet pd1 key) ++ [v])

/-- Appending the parsed metrics of the main disk into
`device_table_stats[dev]`. -/
def devStatsAdd (ds : List (String × KVQ)) (dev : String) (ms : List (String × Frac)) :
    List (String × KVQ) :=
  let ds1 := if (List.lookup dev ds).isSome then ds else ds ++ [(dev, devTableInit)]
  ds1.map fun p =>
    if p.1 == dev then (p.1, ms.foldl (fun a mv => kvqApp a mv.1 mv.2) p.2) else p

/-- The mutable state of the statistics loop of the adapter. -/
structure PState where
  plotData : KVQ
  tableStats : KVQ
  deviceStats : List (String × KVQ)
deriving DecidableEq, Repr

/-- The body of `for idx, stat_entry in enumerate(statistics_list)`. -/
def iostatStep (st : PState) (ie : ℕ × StatEntry) : PState :=
  let cpu := ie.2.avg_cpu.getD ⟨none, none, none, none⟩
  let pd := kvqApp st.plotData "timestamp" ⟨(ie.1 : ℤ), 1⟩
  let pd := kvqApp pd "cpu_user" (cpu.user.getD 0)
  let pd := kvqApp pd "cpu_system" (cpu.system.getD 0)
  let pd := kvqApp pd "cpu_iowait" (cpu.iowait.getD 0)
  let pd := kvqApp pd "cpu_idle" (cpu.idle.getD 0)
  let ts := kvqApp st.tableStats "cpu_user" (cpu.user.getD 0)
  let ts := kvqApp ts "cpu_system" (cpu.system.getD 0)
  let ts := kvqApp ts "cpu_iowait" (cpu.iowait.getD 0)
  let ts := kvqApp ts "cpu_idle" (cpu.idle.getD 0)
  match (ie.2.disk.getD []).find? fun d => !endsInDigit (d.disk_device.getD "") with
  | none => ⟨pd, ts, st.deviceStats⟩
  | some d =>
    let dev := d.disk_device.getD ""
    let pd2 := (parsedMetrics d).foldl
      (fun a mv => addDevMetric a (dev ++ "_" ++ mv.1) mv.2) pd
    ⟨pd2, ts, devStatsAdd st.deviceStats dev (parsedMetrics d)⟩

/-- The final pass padding every non-timestamp list to the timestamp
length. -/
def finalizePlot (pd : KVQ) : KVQ :=
  let tsLen := (kvqGet pd "timestamp").length
  pd.map fun p => if p.1 == "timestamp" then p else (p.1, padTo tsLen p.2)

/-- Serialize a numeric-list dictionary as JSON values. -/
def kvqToJ (m : KVQ) : JMap := m.map fun p => (p.1, JVal.arr p.2)

/-- The `table_data` computation: per-key 2-decimal averages of the CPU
stats, then of every device metric list. -/
def iostatTableData (ts : KVQ) (ds : List (String × KVQ)) : JMap :=
  (ts.filterMap fun p =>
    if p.2.isEmpty then none
    else some (p.1 ++ "_avg", JVal.num (pyRound 2 (qmean p.2)))) ++
  (ds.flatMap fun dp => dp.2.filterMap fun p =>
    if p.2.isEmpty then none
    else some (dp.1 ++ "_" ++ p.1 ++ "_avg", JVal.num (pyRound 2 (qmean p.2))))

/-- The f-string version banner of the adapter. -/
def versionOf (h : HostRec) : String :=
  (h.sysname.getD "Linux") ++ " " ++ (h.release.getD "") ++ " (" ++
    (h.nodename.getD "") ++ ") " ++ (h.machine.getD "")

/-- The dictionary literal every `return` of the adapter builds: the
keys `version`, `plot` and `table` — and no `series` key. -/
def iostatOut (v : String) (p t : JMap) : ParserOutput := ⟨v, some p, some t, none⟩

/-- `parse_single_json_object` of `scripts/parse_iostat.py`; the argument
is `none` when `json.loads` failed. -/
def parse_single_json_object (j : Option IostatJson) : ParserOutput :=
  match j with
  | none => iostatOut "unknown" [] []
  | some data =>
    match data.sysstat with
    | none => iostatOut "unknown" (kvqToJ initPlot) []
    | some sys =>
      match sys.hosts.getD [] with
      | [] => iostatOut "unknown" (kvqToJ initPlot) []
      | host :: _ =>
        match host.statistics.getD [] with
        | [] => iostatOut (versionOf host) (kvqToJ initPlot) []
        | s :: ss =>
          let st := ((s :: ss).enum).foldl iostatStep ⟨initPlot, initTable, []⟩
          iostatOut (versionOf host) (kvqToJ (finalizePlot st.plotData))
            (iostatTableData st.tableStats st.deviceStats)

/-!  The run-loop step, restated as one structural equation. -/

/-- The representative-series update of one run: only the run literally
named `run_1` stores, and only when the adapter produced a payload. -/
def seriesUpd (name : String) (s old : Option JMap) : Option JMap :=
  if name == "run_1" then (match s with | some x => some x | none => old) else old

/-- C1 counterexample input: three runs collected values 1, 1, 2. -/
def c1Bad : KV := [("tps", [JVal.num 1, JVal.num 1, JVal.num 2])]

/-- The spec's demo scenario: runs with tps 100, 110 and 105. -/
def c1DemoOut (q : Frac) : ParserOutput := ⟨"", some [("tps", JVal.num q)], none, none⟩

/-- The three demo run directories. -/
def c1DemoRuns : List RunDir :=
  [⟨"run_1", some (some (c1DemoOut 100)), none, none⟩,
   ⟨"run_2", some (some (c1DemoOut 110)), none, none⟩,
   ⟨"run_3", some (some (c1DemoOut 105)), none, none⟩]

/-- C2 counterexample tree: the only run is named `run_2`, its docker
stats parse to a scalar and a series. -/
def c2Out : ParserOutput :=
  ⟨"", some [("cpu_perc", JVal.num 1)], none, some [("cpu_perc", JVal.arr [1, 2])]⟩

/-- The counterexample hierarchy for C2. -/
def c2Tree : List BenchmarkDir :=
  [⟨"sysbench-oltp", [⟨"fsA", [⟨"run_2", none, some (some c2Out), none⟩]⟩]⟩]

/-- Witness runs for C2: `run_1` with a docker series, a later `run_2`
with a different docker series. -/
def c2wRuns : List RunDir :=
  [⟨"run_1", none, some (some ⟨"", none, none, some [("cpu_perc", JVal.arr [3, 4])]⟩), none⟩,
   ⟨"run_2", none, some (some ⟨"", none, none, some [("cpu_perc", JVal.arr [9])]⟩), none⟩]

/-- C3 counterexample tree: docker stats scalars 1, 1, 2 across three runs
of one (benchmark, configuration) pair. -/
def c3Out (q : Frac) : ParserOutput := ⟨"", some [("cpu_perc", JVal.num q)], none, none⟩

/-- The counterexample hierarchy for C3. -/
def c3Tree : List BenchmarkDir :=
  [⟨"sysbench-oltp", [⟨"fsA",
    [⟨"run_1", none, some (some (c3Out 1)), none⟩,
     ⟨"run_2", none, some (some (c3Out 1)), none⟩,
     ⟨"run_3", none, some (some (c3Out 2)), none⟩]⟩]⟩]

/-- Witness accumulator for C3: every group collected `[1, 1, 2]` at `k`. -/
def c3wAcc : Accum :=
  ⟨[("k", [JVal.num 1, JVal.num 1, JVal.num 2])],
   [("k", [JVal.num 1, JVal.num 1, JVal.num 2])],
   [("k", [JVal.num 1, JVal.num 1, JVal.num 2])],
   [("k", [JVal.num 1, JVal.num 1, JVal.num 2])],
   [("k", [JVal.num 1, JVal.num 1, JVal.num 2])],
   [("k", [JVal.num 1, JVal.num 1, JVal.num 2])], none, none⟩

/-- C4 counterexample input: a table key observed in exactly one run with
value `0.00001`. -/
def c4Bad : KV := [("x", [JVal.num (mkQ 1 100000)])]

/-- Witness input for C4: one single-valued numeric key and one
single-valued string key. -/
def c4wm : KV := [("bs", [JVal.num (mkQ 1 100000)]), ("rw_mode", [JVal.str "randread"])]

/-- Witness tree for C5: one resolvable benchmark whose single run
contributed one workload plot value. -/
def c5wTree : List BenchmarkDir :=
  [⟨"sysbench-oltp", [⟨"fsA",
    [⟨"run_1", some (some ⟨"", some [("tps", JVal.num 7)], none, none⟩), none, none⟩]⟩]⟩]

/-- An all-files-missing run directory. -/
def c5MissingRun : RunDir := ⟨"run_1", none, none, none⟩

/-- Witness runs for C9: `run_1` has an iostat result with both a `table`
scalar and a `plot` series, and a docker result with a `plot` scalar and
a `series` payload. -/
def c9wRuns : List RunDir :=
  [⟨"run_1", none,
    some (some ⟨"", some [("cpu_perc", JVal.num 2)], none,
      some [("cpu_perc", JVal.arr [1, 3])]⟩),
    some (some ⟨"", some [("timestamp", JVal.arr [0, 1])],
      some [("cpu_user_avg", JVal.num 5)], none⟩)⟩]

/-- Witness input for C10: a key with mixed string/number values, a key
with only a string, and a key whose first value is numeric followed by a
string. -/
def c10m : KV :=
  [("k", [JVal.str "a", JVal.num 3, JVal.num 5]),
   ("j", [JVal.str "b"]),
   ("t", [JVal.num 3, JVal.str "x"])]

/-!  Basic lookup and append lemmas for the association-list dictionaries. -/

theorem lookupV_cons (k1 : String) (v : JVal) (rest : JMap) (k : String) :
    lookupV ((k1, v) :: rest) k = if k == k1 then some v else lookupV rest k := by
  cases hb : k == k1 <;> simp [lookupV, List.lookup, hb]

theorem lookupL_cons (k1 : String) (vs : List JVal) (rest : KV) (k : String) :
    lookupL ((k1, vs) :: rest) k = if k == k1 then vs else lookupL rest k := by
  cases hb : k == k1 <;> simp [lookupL, List.lookup, hb]

theorem lookupL_nil (k : String) : lookupL [] k = [] := rfl

theorem lookupL_appendKV_self (m : KV) (k : String) (v : JVal) :
    lookupL (appendKV m k v) k = lookupL m k ++ [v] := by
  induction m with
  | nil => simp [appendKV, lookupL_cons, lookupL_nil]
  | cons p rest ih =>
    obtain ⟨k1, vs⟩ := p
    by_cases h : k1 = k
    · subst h
      simp [appendKV, lookupL_cons]
    · have hb : (k1 == k) = false := by simp [h]
      have hb2 : (k == k1) = false := by simp [Ne.symm h]
      simp [appendKV, hb, lookupL_cons, hb2, ih]

theorem lookupL_appendKV_ne (m : KV) (j k : String) (v : JVal) (h : j ≠ k) :
    lookupL (appendKV m j v) k = lookupL m k := by
  induction m with
  | nil => simp [appendKV, lookupL_cons, lookupL_nil, Ne.symm h]
  | cons p rest ih =>
    obtain ⟨k1, vs⟩ := p
    by_cases h1 : k1 = j
    · subst h1
      simp [appendKV, lookupL_cons, Ne.symm h]
    · have hb : (k1 == j) = false := by simp [h1]
      simp [appendKV, hb, lookupL_cons, ih]

theorem lookupL_appendAll (ps : JMap) (m : KV) (k : String) :
    lookupL (appendAll m ps) k
      = lookupL m k ++ (ps.filter fun p => p.1 == k).map Prod.snd := by
  induction ps generalizing m with
  | nil => simp [appendAll]
  | cons p rest ih =>
    obtain ⟨k1, v⟩ := p
    have hstep : appendAll m ((k1, v) :: rest) = appendAll (appendKV m k1 v) rest := by
      simp [appendAll]
    by_cases h : k1 = k
    · subst h
      simp only [hstep, ih, lookupL_appendKV_self]
      simp
    · have hb : (k1 == k) = false := by simp [h]
      simp only [hstep, ih, lookupL_appendKV_ne m k1 k v h]
      simp [hb]

theorem processWorkload_eq (acc : Accum) (r : RunDir) :
    processWorkload acc r = { acc with
      metrics_plot := appendAll acc.metrics_plot (workloadPlotPairs r),
      metrics_table := appendAll acc.metrics_table (workloadTablePairs r) } := by
  obtain ⟨nm, w, dk, io⟩ := r
  match w with
  | none => simp [processWorkload, workloadPlotPairs, workloadTablePairs, okOut, appendAll]
  | some none => simp [processWorkload, workloadPlotPairs, workloadTablePairs, okOut, appendAll]
  | some (some d) =>
    obtain ⟨ver, pl, tb, se⟩ := d
    cases pl <;> cases tb <;>
      simp [processWorkload, workloadPlotPairs, workloadTablePairs, okOut, appendAll]

theorem processDocker_eq (acc : Accum) (r : RunDir) :
    processDocker acc r = { acc with
      docker_plot := appendAll acc.docker_plot (dockerPlotPairs r),
      docker_table := appendAll acc.docker_table (dockerPlotPairs r),
      docker_series := seriesUpd r.name (dockerSeriesOf r) acc.docker_series } := by
  obtain ⟨nm, w, dk, io⟩ := r
  match dk with
  | none =>
    simp only [processDocker, dockerPlotPairs, dockerSeriesOf, okOut, seriesUpd]
    cases hb : nm == "run_1" <;> simp [appendAll]
  | some none =>
    simp only [processDocker, dockerPlotPairs, dockerSeriesOf, okOut, seriesUpd]
    cases hb : nm == "run_1" <;> simp [appendAll]
  | some (some d) =>
    obtain ⟨ver, pl, tb, se⟩ := d
    simp only [processDocker, dockerPlotPairs, dockerSeriesOf, okOut, seriesUpd]
    cases hb : nm == "run_1" <;> cases pl <;> cases se <;> simp [appendAll]

theorem processIostat_eq (acc : Accum) (r : RunDir) :
    processIostat acc r = { acc with
      monitoring_plot := appendAll acc.monitoring_plot (iostatTablePairs r),
      monitoring_table := appendAll acc.monitoring_table (iostatTablePairs r),
      iostat_series := seriesUpd r.name (iostatSeriesOf r) acc.iostat_series } := by
  obtain ⟨nm, w, dk, io⟩ := r
  match io with
  | none =>
    simp only [processIostat, iostatTablePairs, iostatSeriesOf, okOut, seriesUpd]
    cases hb : nm == "run_1" <;> simp [appendAll]
  | some none =>
    simp only [processIostat, iostatTablePairs, iostatSeriesOf, okOut, seriesUpd]
    cases hb : nm == "run_1" <;> simp [appendAll]
  | some (some d) =>
    obtain ⟨ver, pl, tb, se⟩ := d
    simp only [processIostat, iostatTablePairs, iostatSeriesOf, okOut, seriesUpd]
    cases hb : nm == "run_1" <;> cases tb <;> cases pl <;> simp [appendAll]

theorem processRun_eq (acc : Accum) (r : RunDir) :
    processRun acc r =
      ⟨appendAll acc.metrics_plot (workloadPlotPairs r),
       appendAll acc.metrics_table (workloadTablePairs r),
       appendAll acc.monitoring_plot (iostatTablePairs r),
       appendAll acc.monitoring_table (iostatTablePairs r),
       appendAll acc.docker_plot (dockerPlotPairs r),
       appendAll acc.docker_table (dockerPlotPairs r),
       seriesUpd r.name (dockerSeriesOf r) acc.docker_series,
       seriesUpd r.name (iostatSeriesOf r) acc.iostat_series⟩ := by
  simp [processRun, processWorkload_eq, processDocker_eq, processIostat_eq]

/-!  Collection across a run list: each accumulated value list is exactly
the sequence of values the runs produced for that key. -/

theorem collectedAt_nil (f : RunDir → JMap) (k : String) : collectedAt f [] k = [] := rfl

theorem collectedAt_cons (f : RunDir → JMap) (r : RunDir) (rs : List RunDir) (k : String) :
    collectedAt f (r :: rs) k
      = ((f r).filter fun p => p.1 == k).map Prod.snd ++ collectedAt f rs k := by
  simp [collectedAt]

theorem collect_KV_lookup (proj : Accum → KV) (pairsOf : RunDir → JMap)
    (hstep : ∀ acc r, proj (processRun acc r) = appendAll (proj acc) (pairsOf r)) :
    ∀ (runs : List RunDir) (acc : Accum) (k : String),
      lookupL (proj (runs.foldl processRun acc)) k
        = lookupL (proj acc) k ++ collectedAt pairsOf runs k := by
  intro runs
  induction runs with
  | nil => intro acc k; simp [collectedAt_nil]
  | cons r rs ih =>
    intro acc k
    simp only [List.foldl_cons, ih, hstep, lookupL_appendAll, collectedAt_cons,
      List.append_assoc]

theorem collect_metrics_plot (runs : List RunDir) (k : String) :
    lookupL (collectRuns runs).metrics_plot k = collectedAt workloadPlotPairs runs k := by
  have h := collect_KV_lookup (fun a => a.metrics_plot) workloadPlotPairs
    (fun acc r => by simp [processRun_eq]) runs Accum.empty k
  simpa [collectRuns, Accum.empty, lookupL_nil] using h

theorem collect_metrics_table (runs : List RunDir) (k : String) :
    lookupL (collectRuns runs).metrics_table k = collectedAt workloadTablePairs runs k := by
  have h := collect_KV_lookup (fun a => a.metrics_table) workloadTablePairs
    (fun acc r => by simp [processRun_eq]) runs Accum.empty k
  simpa [collectRuns, Accum.empty, lookupL_nil] using h

theorem collect_monitoring_plot (runs : List RunDir) (k : String) :
    lookupL (collectRuns runs).monitoring_plot k = collectedAt iostatTablePairs runs k := by
  have h := collect_KV_lookup (fun a => a.monitoring_plot) iostatTablePairs
    (fun acc r => by simp [processRun_eq]) runs Accum.empty k
  simpa [collectRuns, Accum.empty, lookupL_nil] using h

theorem collect_monitoring_table (runs : List RunDir) (k : String) :
    lookupL (collectRuns runs).monitoring_table k = collectedAt iostatTablePairs runs k := by
  have h := collect_KV_lookup (fun a => a.monitoring_table) iostatTablePairs
    (fun acc r => by simp [processRun_eq]) runs Accum.empty k
  simpa [collectRuns, Accum.empty, lookupL_nil] using h

theorem collect_docker_plot (runs : List RunDir) (k : String) :
    lookupL (collectRuns runs).docker_plot k = collectedAt dockerPlotPairs runs k := by
  have h := collect_KV_lookup (fun a => a.docker_plot) dockerPlotPairs
    (fun acc r => by simp [processRun_eq]) runs Accum.empty k
  simpa [collectRuns, Accum.empty, lookupL_nil] using h

theorem collect_docker_table (runs : List RunDir) (k : String) :
    lookupL (collectRuns runs).docker_table k = collectedAt dockerPlotPairs runs k := by
  have h := collect_KV_lookup (fun a => a.docker_table) dockerPlotPairs
    (fun acc r => by simp [processRun_eq]) runs Accum.empty k
  simpa [collectRuns, Accum.empty, lookupL_nil] using h

/-!  The representative-series slots across a run list. -/

theorem fold_series_pres (projS : Accum → Option JMap) (srcOf : RunDir → Option JMap)
    (hstep : ∀ acc r, projS (processRun acc r) = seriesUpd r.name (srcOf r) (projS acc)) :
    ∀ (rs : List RunDir) (acc : Accum), (∀ x ∈ rs, (x.name == "run_1") = false) →
      projS (rs.foldl processRun acc) = projS acc := by
  intro rs
  induction rs with
  | nil => intro acc h; simp
  | cons x xs ih =>
    intro acc h
    simp only [List.foldl_cons]
    rw [ih (processRun acc x) (fun y hy => h y (by simp [hy]))]
    rw [hstep acc x]
    simp [seriesUpd, h x (by simp)]

theorem collect_series_generic (projS : Accum → Option JMap) (srcOf : RunDir → Option JMap)
    (hstep : ∀ acc r, projS (processRun acc r) = seriesUpd r.name (srcOf r) (projS acc)) :
    ∀ (runs : List RunDir) (acc : Accum),
      ((runs.filter fun r => r.name == "run_1").length ≤ 1) →
      projS (runs.foldl processRun acc)
        = (match runs.find? fun r => r.name == "run_1" with
           | some r => (match srcOf r with | some s => some s | none => projS acc)
           | none => projS acc) := by
  intro runs
  induction runs with
  | nil => intro acc hlen; simp
  | cons r rs ih =>
    intro acc hlen
    cases hb : r.name == "run_1" with
    | true =>
      have hlen2 : ((r :: rs).filter fun x => x.name == "run_1").length
          = ((rs.filter fun x => x.name == "run_1").length) + 1 := by
        simp [List.filter_cons, hb]
      have h0 : ((rs.filter fun x => x.name == "run_1").length) = 0 := by
        rw [hlen2] at hlen; omega
      have hrest : (rs.filter fun x => x.name == "run_1") = [] :=
        List.length_eq_zero.mp h0
      have hnone : ∀ x ∈ rs, (x.name == "run_1") = false := by
        intro x hx
        by_contra hcon
        have hmem : x ∈ rs.filter fun x => x.name == "run_1" :=
          List.mem_filter.mpr ⟨hx, by simpa using hcon⟩
        simp [hrest] at hmem
      have hfind : ((r :: rs).find? fun x => x.name == "run_1") = some r :=
        List.find?_cons_of_pos _ hb
      simp only [List.foldl_cons, hfind]
      rw [fold_series_pres projS srcOf hstep rs (processRun acc r) hnone]
      rw [hstep acc r]
      simp [seriesUpd, hb]
    | false =>
      have hlen2 : ((r :: rs).filter fun x => x.name == "run_1")
          = (rs.filter fun x => x.name == "run_1") := by
        simp [List.filter_cons, hb]
      have hfind : ((r :: rs).find? fun x => x.name == "run_1")
          = (rs.find? fun x => x.name == "run_1") :=
        List.find?_cons_of_neg _ (by simp [hb])
      have hpr : projS (processRun acc r) = projS acc := by
        rw [hstep acc r]; simp [seriesUpd, hb]
      simp only [List.foldl_cons, hfind]
      rw [ih (processRun acc r) (by rw [hlen2] at hlen; exact hlen), hpr]

theorem collect_docker_series (runs : List RunDir)
    (h : ((runs.filter fun r => r.name == "run_1").length ≤ 1)) :
    (collectRuns runs).docker_series
      = (runs.find? fun r => r.name == "run_1").bind dockerSeriesOf := by
  have hh := collect_series_generic (fun a => a.docker_series) dockerSeriesOf
    (fun acc r => by simp [processRun_eq]) runs Accum.empty h
  simp only [] at hh
  simp only [collectRuns]
  rw [hh]
  cases hf : runs.find? fun r => r.name == "run_1" with
  | none => rfl
  | some r => cases hs : dockerSeriesOf r <;> simp [Accum.empty, hs]

theorem collect_iostat_series (runs : List RunDir)
    (h : ((runs.filter fun r => r.name == "run_1").length ≤ 1)) :
    (collectRuns runs).iostat_series
      = (runs.find? fun r => r.name == "run_1").bind iostatSeriesOf := by
  have hh := collect_series_generic (fun a => a.iostat_series) iostatSeriesOf
    (fun acc r => by simp [processRun_eq]) runs Accum.empty h
  simp only [] at hh
  simp only [collectRuns]
  rw [hh]
  cases hf : runs.find? fun r => r.name == "run_1" with
  | none => rfl
  | some r => cases hs : iostatSeriesOf r <;> simp [Accum.empty, hs]

/-!  No-duplicate-keys invariant of the accumulators. -/

theorem keys_appendKV_mem (m : KV) (k : String) (v : JVal) :
    ∀ x ∈ (appendKV m k v).map Prod.fst, x ∈ m.map Prod.fst ∨ x = k := by
  induction m with
  | nil => intro x hx; simp [appendKV] at hx; simp [hx]
  | cons p rest ih =>
    intro x hx
    by_cases h : p.1 = k
    · have hb : (p.1 == k) = true := by simp [h]
      simp [appendKV, hb] at hx
      rcases hx with hx | hx
      · simp [hx]
      · exact Or.inl (by simp [hx])
    · have hb : (p.1 == k) = false := by simp [h]
      simp [appendKV, hb] at hx
      rcases hx with hx | hx
      · simp [hx]
      · rcases ih x (by simpa using hx) with h2 | h2
        · exact Or.inl (by simp [h2])
        · exact Or.inr h2

theorem keysNodup_appendKV (m : KV) (k : String) (v : JVal) (h : keysNodup m) :
    keysNodup (appendKV m k v) := by
  induction m with
  | nil => simp [appendKV, keysNodup]
  | cons p rest ih =>
    have hparts := List.nodup_cons.mp
      (by simpa only [keysNodup, List.map_cons] using h)
    have h1 : p.1 ∉ (rest.map Prod.fst) := hparts.1
    have h2 : keysNodup rest := hparts.2
    by_cases hp : p.1 = k
    · have hb : (p.1 == k) = true := by simp [hp]
      simp only [keysNodup, appendKV, hb, if_true, List.map_cons] at h ⊢
      exact h
    · have hb : (p.1 == k) = false := by simp [hp]
      have h3 : p.1 ∉ ((appendKV rest k v).map Prod.fst) := by
        intro hmem
        rcases keys_appendKV_mem rest k v p.1 hmem with hc | hc
        · exact h1 hc
        · exact hp hc
      have h4 : ((appendKV rest k v).map Prod.fst).Nodup := ih h2
      have h5 := List.nodup_cons.mpr ⟨h3, h4⟩
      simp only [keysNodup, appendKV, hb, if_false, List.map_cons]
      exact h5

theorem keysNodup_appendAll (ps : JMap) (m : KV) (h : keysNodup m) :
    keysNodup (appendAll m ps) := by
  induction ps generalizing m with
  | nil => simpa [appendAll] using h
  | cons p rest ih =>
    have hstep : appendAll m (p :: rest) = appendAll (appendKV m p.1 p.2) rest := by
      simp [appendAll]
    rw [hstep]
    exact ih _ (keysNodup_appendKV m p.1 p.2 h)

theorem collect_keysNodup_generic (proj : Accum → KV) (pairsOf : RunDir → JMap)
    (hstep : ∀ acc r, proj (processRun acc r) = appendAll (proj acc) (pairsOf r)) :
    ∀ (runs : List RunDir) (acc : Accum), keysNodup (proj acc) →
      keysNodup (proj (runs.foldl processRun acc)) := by
  intro runs
  induction runs with
  | nil => intro acc h; simpa using h
  | cons r rs ih =>
    intro acc h
    simp only [List.foldl_cons]
    exact ih (processRun acc r) (by rw [hstep]; exact keysNodup_appendAll _ _ h)

theorem collectRuns_keysNodup (runs : List RunDir) :
    keysNodup (collectRuns runs).metrics_plot ∧
    keysNodup (collectRuns runs).metrics_table ∧
    keysNodup (collectRuns runs).monitoring_plot ∧
    keysNodup (collectRuns runs).monitoring_table ∧
    keysNodup (collectRuns runs).docker_plot ∧
    keysNodup (collectRuns runs).docker_table := by
  refine ⟨?_, ?_, ?_, ?_, ?_, ?_⟩
  · exact collect_keysNodup_generic (fun a => a.metrics_plot) workloadPlotPairs
      (fun acc r => by simp [processRun_eq]) runs Accum.empty (by simp [Accum.empty, keysNodup])
  · exact collect_keysNodup_generic (fun a => a.metrics_table) workloadTablePairs
      (fun acc r => by simp [processRun_eq]) runs Accum.empty (by simp [Accum.empty, keysNodup])
  · exact collect_keysNodup_generic (fun a => a.monitoring_plot) iostatTablePairs
      (fun acc r => by simp [processRun_eq]) runs Accum.empty (by simp [Accum.empty, keysNodup])
  · exact collect_keysNodup_generic (fun a => a.monitoring_table) iostatTablePairs
      (fun acc r => by simp [processRun_eq]) runs Accum.empty (by simp [Accum.empty, keysNodup])
  · exact collect_keysNodup_generic (fun a => a.docker_plot) dockerPlotPairs
      (fun acc r => by simp [processRun_eq]) runs Accum.empty (by simp [Accum.empty, keysNodup])
  · exact collect_keysNodup_generic (fun a => a.docker_table) dockerPlotPairs
      (fun acc r => by simp [processRun_eq]) runs Accum.empty (by simp [Accum.empty, keysNodup])

/-!  Lookup through the two merge functions. -/

theorem lookupV_mergeMap_not_mem (F : List JVal → Option JVal) :
    ∀ (m : KV) (k : String), k ∉ m.map Prod.fst →
      lookupV (m.filterMap fun p => (F p.2).map fun v => (p.1, v)) k = none := by
  intro m
  induction m with
  | nil => intro k h; rfl
  | cons p rest ih =>
    intro k h
    have hk : k ≠ p.1 := by intro he; exact h (by simp [he])
    have hk2 : k ∉ rest.map Prod.fst := by intro he; exact h (by simp [he])
    cases hF : F p.2 with
    | none =>
      simp only [List.filterMap_cons, hF, Option.map_none']
      exact ih k hk2
    | some v =>
      have hb : (k == p.1) = false := by simp [hk]
      simp only [List.filterMap_cons, hF, Option.map_some', lookupV_cons, hb]
      simpa using ih k hk2

theorem lookupV_mergeMap (F : List JVal → Option JVal) :
    ∀ (m : KV) (k : String), keysNodup m →
      lookupV (m.filterMap fun p => (F p.2).map fun v => (p.1, v)) k
        = (List.lookup k m).bind F := by
  intro m
  induction m with
  | nil => intro k h; rfl
  | cons p rest ih =>
    intro k h
    obtain ⟨k1, vs⟩ := p
    have hparts := List.nodup_cons.mp
      (by simpa only [keysNodup, List.map_cons] using h)
    have hnodup2 : keysNodup rest := hparts.2
    by_cases hk : k = k1
    · subst hk
      have hlk : List.lookup k ((k, vs) :: rest) = some vs := by
        simp [List.lookup]
      rw [hlk]
      cases hF : F vs with
      | none =>
        simp only [List.filterMap_cons, hF, Option.map_none']
        rw [lookupV_mergeMap_not_mem F rest k hparts.1]
        simp [hF]
      | some v =>
        simp only [List.filterMap_cons, hF, Option.map_some', lookupV_cons]
        simp [hF]
    · have hb : (k == k1) = false := by simp [hk]
      have hlk : List.lookup k ((k1, vs) :: rest) = List.lookup k rest := by
        simp [List.lookup, hb]
      rw [hlk]
      cases hF : F vs with
      | none =>
        simp only [List.filterMap_cons, hF, Option.map_none']
        exact ih k hnodup2
      | some v =>
        simp only [List.filterMap_cons, hF, Option.map_some', lookupV_cons, hb]
        simpa using ih k hnodup2

theorem lookupV_calculate_average (m : KV) (k : String) (h : keysNodup m) :
    lookupV (calculate_average m) k = (List.lookup k m).bind mergePlotVals :=
  lookupV_mergeMap mergePlotVals m k h

theorem lookupV_aggregate_table_data (m : KV) (k : String) (h : keysNodup m) :
    lookupV (aggregate_table_data m) k = (List.lookup k m).bind mergeTableVals :=
  lookupV_mergeMap mergeTableVals m k h

/-- The numeric filter is the identity on an all-numeric list. -/
theorem numsOf_map_num (l : List Frac) : numsOf (l.map JVal.num) = l := by
  induction l with
  | nil => rfl
  | cons q qs ih => simp [numsOf] at ih ⊢; exact ih

/-- Relate `lookupL` to `List.lookup` on a nonempty result. -/
theorem lookup_of_lookupL (m : KV) (k : String) (vs : List JVal) (hne : vs ≠ [])
    (h : lookupL m k = vs) : List.lookup k m = some vs := by
  cases hl : List.lookup k m with
  | none =>
    rw [lookupL, hl] at h
    exact (hne (by simpa using h.symm)).elim
  | some l =>
    rw [lookupL, hl] at h
    have h2 : l = vs := by simpa using h
    rw [h2]

/-!  Evaluation of the two per-key merge policies on described value lists. -/

theorem mergePlotVals_multi (q q2 : Frac) (rest : List Frac) :
    mergePlotVals ((q :: q2 :: rest).map JVal.num)
      = some (JVal.num (pyRound 4 (qmean (q :: q2 :: rest)))) := by
  simp only [mergePlotVals, numsOf_map_num]

theorem mergePlotVals_single (q : Frac) :
    mergePlotVals [JVal.num q] = some (JVal.num q) := by
  simp only [mergePlotVals, numsOf, List.filterMap_cons, List.filterMap_nil]

theorem numsOf_num_cons (q : Frac) (vrest : List JVal) :
    numsOf (JVal.num q :: vrest) = q :: numsOf vrest := by
  simp [numsOf]

theorem mergeTableVals_num_head (q : Frac) (vrest : List JVal) :
    mergeTableVals (JVal.num q :: vrest)
      = some (JVal.num (pyRound 4 (qmean (numsOf (JVal.num q :: vrest))))) := by
  simp only [mergeTableVals, JVal.isNum, if_true, numsOf_num_cons]

theorem mergeTableVals_other_head (v : JVal) (vrest : List JVal) (hv : v.isNum = false) :
    mergeTableVals (v :: vrest) = some v := by
  simp only [mergeTableVals, hv]
  simp

/-- C1, the claim as frozen is false: the merged plot value for collected
values `[1, 1, 2]` is the 4-decimal rounding `1.3333`, which is not the
arithmetic mean `4/3` of the collected values. -/
theorem claim_C1_counterexample :
    calculate_average c1Bad = [("tps", JVal.num (mkQ 13333 10000))]
    ∧ mkQ 13333 10000 ≠ qmean [1, 1, 2] := by decide

/-- C1 (amended: the merged value is the arithmetic mean of exactly the
values actually collected, rounded to 4 decimal places when more than one
value was collected).  For any run list, whenever the values collected for
a workload plot key `k` — runs without the key contributing nothing — are
the numbers `q :: q2 :: rest`, the merged report value at `k` is
`round(mean(q :: q2 :: rest), 4)`: the mean ranges over exactly the
collected values, with absent runs excluded rather than zero-filled. -/
theorem claim_C1_amended (runs : List RunDir) (k : String) (q q2 : Frac) (rest : List Frac)
    (h : collectedAt workloadPlotPairs runs k = (q :: q2 :: rest).map JVal.num) :
    lookupV (calculate_average (collectRuns runs).metrics_plot) k
      = some (JVal.num (pyRound 4 (qmean (q :: q2 :: rest)))) := by
  have hnd := (collectRuns_keysNodup runs).1
  have hl : lookupL (collectRuns runs).metrics_plot k = (q :: q2 :: rest).map JVal.num := by
    rw [collect_metrics_plot]; exact h
  have hlk := lookup_of_lookupL _ _ _ (by simp) hl
  rw [lookupV_calculate_average _ _ hnd, hlk, Option.some_bind, mergePlotVals_multi]

/-- Witness for C1: on the spec's demo scenario (tps 100, 110, 105) the
merged value is exactly 105. -/
theorem claim_C1_witness :
    lookupV (calculate_average (collectRuns c1DemoRuns).metrics_plot) "tps"
      = some (JVal.num 105) :=
  (claim_C1_amended c1DemoRuns "tps" 100 110 [105] (by decide)).trans (by decide)

/-- C2, the claim as frozen is false: with a single run named `run_2`
that produced a series, the lowest-ordered run that produced a series is
`run_2`, yet the report stores the empty mapping — the code only ever
stores the series of a run literally named `run_1`. -/
theorem claim_C2_counterexample :
    (entryAt (buildReport c2Tree) "sysbench-oltp" "fsA").map Entry.docker_series
      = some []
    ∧ some ([] : JMap) ≠ some [("cpu_perc", JVal.arr [1, 2])] := by decide

/-- C2 (amended: the representative series for each monitoring source is
exactly the payload of the run literally named `run_1`, stored verbatim
and never overwritten by any other run; when no run named `run_1`
produced a payload, nothing is stored).  Stated for any run list in
which at most one run carries the name `run_1` (directory names are
unique on a real filesystem). -/
theorem claim_C2_amended (runs : List RunDir)
    (h : (runs.filter fun r => r.name == "run_1").length ≤ 1) :
    (collectRuns runs).docker_series
        = (runs.find? fun r => r.name == "run_1").bind dockerSeriesOf
    ∧ (collectRuns runs).iostat_series
        = (runs.find? fun r => r.name == "run_1").bind iostatSeriesOf :=
  ⟨collect_docker_series runs h, collect_iostat_series runs h⟩

/-- Witness for C2: the docker series cache holds exactly the `run_1`
payload (and `run_2` never overwrote it); no iostat series was stored. -/
theorem claim_C2_witness :
    (collectRuns c2wRuns).docker_series = some [("cpu_perc", JVal.arr [3, 4])]
    ∧ (collectRuns c2wRuns).iostat_series = none :=
  ⟨((claim_C2_amended c2wRuns (by decide)).1).trans (by decide),
   ((claim_C2_amended c2wRuns (by decide)).2).trans (by decide)⟩

theorem mergeTableVals_map_num_multi (q q2 : Frac) (rest : List Frac) :
    mergeTableVals ((q :: q2 :: rest).map JVal.num)
      = some (JVal.num (pyRound 4 (qmean (q :: q2 :: rest)))) := by
  rw [List.map_cons, mergeTableVals_num_head]
  rw [show numsOf (JVal.num q :: (q2 :: rest).map JVal.num) = q :: q2 :: rest from by
    rw [numsOf_num_cons, numsOf_map_num]]

/-- C3, the claim as frozen is false: the docker (monitoring-derived) plot
group merges `[1, 1, 2]` to the 4-decimal rounding of the mean (1.3333),
not to the 2-decimal rounding (1.33) the claim asserts for monitoring
groups — and the two differ. -/
theorem claim_C3_counterexample :
    ((entryAt (buildReport c3Tree) "sysbench-oltp" "fsA").map fun e =>
        lookupV e.docker_plot "cpu_perc")
      = some (some (JVal.num (pyRound 4 (qmean [1, 1, 2]))))
    ∧ pyRound 4 (qmean [1, 1, 2]) ≠ pyRound 2 (qmean [1, 1, 2]) := by decide

/-- C3 (amended: the merged mean is rounded to 4 decimal places in every
merge group — the workload groups and the monitoring-derived docker and
iostat groups alike, plot and table alike; the 2-decimal rounding seen on
monitoring scalars is applied per run inside the monitoring adapters, not
by the cross-run merger).  For any accumulator whose key `k` collected
the numbers `q :: q2 :: rest` (more than one value), the merged entry
value in each of the six groups is `round(mean, 4)`. -/
theorem claim_C3_amended (acc : Accum) (k : String) (q q2 : Frac) (rest : List Frac)
    (hnd : keysNodup acc.metrics_plot ∧ keysNodup acc.metrics_table ∧
      keysNodup acc.monitoring_plot ∧ keysNodup acc.monitoring_table ∧
      keysNodup acc.docker_plot ∧ keysNodup acc.docker_table) :
    (List.lookup k acc.metrics_plot = some ((q :: q2 :: rest).map JVal.num) →
      lookupV (mkEntry acc).metrics_plot k
        = some (JVal.num (pyRound 4 (qmean (q :: q2 :: rest))))) ∧
    (List.lookup k acc.docker_plot = some ((q :: q2 :: rest).map JVal.num) →
      lookupV (mkEntry acc).docker_plot k
        = some (JVal.num (pyRound 4 (qmean (q :: q2 :: rest))))) ∧
    (List.lookup k acc.monitoring_plot = some ((q :: q2 :: rest).map JVal.num) →
      lookupV (mkEntry acc).iostat_plot k
        = some (JVal.num (pyRound 4 (qmean (q :: q2 :: rest))))) ∧
    (List.lookup k acc.metrics_table = some ((q :: q2 :: rest).map JVal.num) →
      lookupV (mkEntry acc).metrics_table k
        = some (JVal.num (pyRound 4 (qmean (q :: q2 :: rest))))) ∧
    (List.lookup k acc.docker_table = some ((q :: q2 :: rest).map JVal.num) →
      lookupV (mkEntry acc).docker_table k
        = some (JVal.num (pyRound 4 (qmean (q :: q2 :: rest))))) ∧
    (List.lookup k acc.monitoring_table = some ((q :: q2 :: rest).map JVal.num) →
      lookupV (mkEntry acc).iostat_table k
        = some (JVal.num (pyRound 4 (qmean (q :: q2 :: rest))))) := by
  obtain ⟨h1, h2, h3, h4, h5, h6⟩ := hnd
  refine ⟨?_, ?_, ?_, ?_, ?_, ?_⟩ <;> intro hlk <;> simp only [mkEntry]
  · rw [lookupV_calculate_average _ _ h1, hlk, Option.some_bind, mergePlotVals_multi]
  · rw [lookupV_calculate_average _ _ h5, hlk, Option.some_bind, mergePlotVals_multi]
  · rw [lookupV_calculate_average _ _ h3, hlk, Option.some_bind, mergePlotVals_multi]
  · rw [lookupV_aggregate_table_data _ _ h2, hlk, Option.some_bind,
      mergeTableVals_map_num_multi]
  · rw [lookupV_aggregate_table_data _ _ h6, hlk, Option.some_bind,
      mergeTableVals_map_num_multi]
  · rw [lookupV_aggregate_table_data _ _ h4, hlk, Option.some_bind,
      mergeTableVals_map_num_multi]

/-- Witness for C3: on the concrete accumulator all six groups merge to
the same 4-decimal-rounded mean. -/
theorem claim_C3_witness :
    lookupV (mkEntry c3wAcc).metrics_plot "k"
        = some (JVal.num (pyRound 4 (qmean [1, 1, 2])))
    ∧ lookupV (mkEntry c3wAcc).docker_plot "k"
        = some (JVal.num (pyRound 4 (qmean [1, 1, 2])))
    ∧ lookupV (mkEntry c3wAcc).iostat_plot "k"
        = some (JVal.num (pyRound 4 (qmean [1, 1, 2])))
    ∧ lookupV (mkEntry c3wAcc).metrics_table "k"
        = some (JVal.num (pyRound 4 (qmean [1, 1, 2])))
    ∧ lookupV (mkEntry c3wAcc).docker_table "k"
        = some (JVal.num (pyRound 4 (qmean [1, 1, 2])))
    ∧ lookupV (mkEntry c3wAcc).iostat_table "k"
        = some (JVal.num (pyRound 4 (qmean [1, 1, 2]))) := by
  have hnd : keysNodup c3wAcc.metrics_plot := by unfold keysNodup; decide
  have h := claim_C3_amended c3wAcc "k" 1 1 [2]
    ⟨hnd, hnd, hnd, hnd, hnd, hnd⟩
  exact ⟨h.1 (by decide), h.2.1 (by decide), h.2.2.1 (by decide),
    h.2.2.2.1 (by decide), h.2.2.2.2.1 (by decide), h.2.2.2.2.2 (by decide)⟩

/-- C4, the claim as frozen is false for the table group: a single
collected numeric table value `0.00001` merges to `round(0.00001, 4) = 0.0`
— the value is changed by rounding, not returned unchanged. -/
theorem claim_C4_counterexample :
    aggregate_table_data c4Bad = [("x", JVal.num 0)]
    ∧ mkQ 1 100000 ≠ 0 := by decide

/-- C4 (amended: only the plot group returns a single collected value
unchanged; the table group passes even a single numeric value through
`round(mean, 4)`, so a single numeric table value can change; a single
non-numeric table value is returned unchanged). -/
theorem claim_C4_amended (m : KV) (k : String) (hnd : keysNodup m) :
    (∀ q : Frac, List.lookup k m = some [JVal.num q] →
        lookupV (calculate_average m) k = some (JVal.num q)) ∧
    (∀ q : Frac, List.lookup k m = some [JVal.num q] →
        lookupV (aggregate_table_data m) k
          = some (JVal.num (pyRound 4 (qmean [q])))) ∧
    (∀ v : JVal, v.isNum = false → List.lookup k m = some [v] →
        lookupV (aggregate_table_data m) k = some v) := by
  refine ⟨?_, ?_, ?_⟩
  · intro q hlk
    rw [lookupV_calculate_average _ _ hnd, hlk, Option.some_bind, mergePlotVals_single]
  · intro q hlk
    rw [lookupV_aggregate_table_data _ _ hnd, hlk, Option.some_bind, mergeTableVals_num_head]
    rw [show numsOf [JVal.num q] = [q] from by rw [numsOf_num_cons]; rfl]
  · intro v hv hlk
    rw [lookupV_aggregate_table_data _ _ hnd, hlk, Option.some_bind,
      mergeTableVals_other_head v [] hv]

/-- Witness for C4: the plot merge returns the single value unchanged,
the table merge rounds it, and a single string passes through. -/
theorem claim_C4_witness :
    lookupV (calculate_average c4wm) "bs" = some (JVal.num (mkQ 1 100000))
    ∧ lookupV (aggregate_table_data c4wm) "bs"
        = some (JVal.num (pyRound 4 (qmean [mkQ 1 100000])))
    ∧ lookupV (aggregate_table_data c4wm) "rw_mode" = some (JVal.str "randread") := by
  have hnd : keysNodup c4wm := by unfold keysNodup; decide
  exact ⟨(claim_C4_amended c4wm "bs" hnd).1 (mkQ 1 100000) (by decide),
    (claim_C4_amended c4wm "bs" hnd).2.1 (mkQ 1 100000) (by decide),
    (claim_C4_amended c4wm "rw_mode" hnd).2.2 (JVal.str "randread") (by decide) (by decide)⟩

/-- C5, final clause of the claim as frozen is false: a resolvable
(benchmark, configuration) pair — `sysbench-oltp` has a mapped parser —
whose only run has no files at all produces an empty report, with no
AggregatedEntry for the pair. -/
theorem claim_C5_counterexample :
    buildReport [⟨"sysbench-oltp", [⟨"fsA", [⟨"run_1", none, none, none⟩]⟩]⟩] = []
    ∧ get_parser_for_benchmark "sysbench-oltp" = some "scripts/parse_sysbench.py" := by
  decide

/-- C5 (amended: non-fatal conditions — an unroutable benchmark
directory, a missing per-run file, or a failed/undecodable adapter
invocation — contribute no values and never abort the pass, but the final
Report contains an AggregatedEntry exactly for those resolvable
(benchmark, configuration) pairs for which at least one run contributed
at least one value; a resolvable pair with no contributions at all is
omitted from the Report). -/
theorem claim_C5_amended :
    (∀ (b : BenchmarkDir) (bs : List BenchmarkDir),
        get_parser_for_benchmark b.name = none → buildReport (b :: bs) = buildReport bs) ∧
    (∀ (acc : Accum) (r : RunDir), r.workload = none ∨ r.workload = some none →
        (processRun acc r).metrics_plot = acc.metrics_plot ∧
        (processRun acc r).metrics_table = acc.metrics_table) ∧
    (∀ (acc : Accum) (r : RunDir), r.docker = none ∨ r.docker = some none →
        (processRun acc r).docker_plot = acc.docker_plot ∧
        (processRun acc r).docker_table = acc.docker_table ∧
        (processRun acc r).docker_series = acc.docker_series) ∧
    (∀ (acc : Accum) (r : RunDir), r.iostat = none ∨ r.iostat = some none →
        (processRun acc r).monitoring_plot = acc.monitoring_plot ∧
        (processRun acc r).monitoring_table = acc.monitoring_table ∧
        (processRun acc r).iostat_series = acc.iostat_series) ∧
    (∀ (bs : List BenchmarkDir) (bn cn : String),
        (∃ cfgs, (bn, cfgs) ∈ buildReport bs ∧ ∃ e, (cn, e) ∈ cfgs) ↔
        (∃ b ∈ bs, b.name = bn ∧ get_parser_for_benchmark bn ≠ none ∧
          ∃ cfg ∈ b.configs, cfg.name = cn ∧ (collectRuns cfg.runs).touched = true)) := by
  refine ⟨?_, ?_, ?_, ?_, ?_⟩
  · intro b bs hp
    simp [buildReport, buildBenchmark, hp, List.filterMap_cons]
  · intro acc r h
    rcases h with h | h <;>
      simp [processRun_eq, workloadPlotPairs, workloadTablePairs, okOut, h, appendAll]
  · intro acc r h
    rcases h with h | h <;>
      simp [processRun_eq, dockerPlotPairs, dockerSeriesOf, okOut, h, appendAll, seriesUpd]
  · intro acc r h
    rcases h with h | h <;>
      simp [processRun_eq, iostatTablePairs, iostatSeriesOf, okOut, h, appendAll, seriesUpd]
  · intro bs bn cn
    constructor
    · rintro ⟨cfgs, hmem, e, hemem⟩
      rcases List.mem_filterMap.mp hmem with ⟨b, hb, hbb⟩
      cases hp : get_parser_for_benchmark b.name with
      | none =>
        simp only [buildBenchmark, hp] at hbb
        exact absurd hbb (by simp)
      | some scr =>
        simp only [buildBenchmark, hp] at hbb
        by_cases he : (b.configs.filterMap buildConfig).isEmpty
        · simp [he] at hbb
        · simp [he] at hbb
          obtain ⟨hname, hcfgs⟩ := hbb
          subst hname
          subst hcfgs
          rcases List.mem_filterMap.mp hemem with ⟨cfg, hcfg, hcc⟩
          by_cases ht : (collectRuns cfg.runs).touched = true
          · simp only [buildConfig, ht, if_true] at hcc
            simp at hcc
            obtain ⟨hcn, hce⟩ := hcc
            exact ⟨b, hb, rfl, by simp [hp], cfg, hcfg, hcn, ht⟩
          · simp [buildConfig, ht] at hcc
    · rintro ⟨b, hb, hname, hp, cfg, hcfg, hcn, ht⟩
      subst hname
      subst hcn
      have hcc : buildConfig cfg = some (cfg.name, mkEntry (collectRuns cfg.runs)) := by
        simp [buildConfig, ht]
      have hcmem : (cfg.name, mkEntry (collectRuns cfg.runs))
          ∈ b.configs.filterMap buildConfig :=
        List.mem_filterMap.mpr ⟨cfg, hcfg, hcc⟩
      have hne : (b.configs.filterMap buildConfig).isEmpty = false := by
        rw [List.isEmpty_eq_false]
        intro h0
        rw [h0] at hcmem
        simp at hcmem
      cases hp2 : get_parser_for_benchmark b.name with
      | none => exact absurd hp2 hp
      | some scr =>
        have hbb : buildBenchmark b = some (b.name, b.configs.filterMap buildConfig) := by
          simp [buildBenchmark, hp2, hne]
        exact ⟨b.configs.filterMap buildConfig,
          List.mem_filterMap.mpr ⟨b, hb, hbb⟩,
          mkEntry (collectRuns cfg.runs), hcmem⟩

/-- Witness for C5: an unroutable benchmark contributes nothing, a run
with missing files leaves every accumulator unchanged, and the witness
tree produces an entry for its contributing pair. -/
theorem claim_C5_witness :
    buildReport [⟨"unknown-bench", []⟩] = buildReport []
    ∧ (processRun Accum.empty c5MissingRun).metrics_plot = Accum.empty.metrics_plot
    ∧ (processRun Accum.empty c5MissingRun).docker_series = Accum.empty.docker_series
    ∧ (processRun Accum.empty c5MissingRun).iostat_series = Accum.empty.iostat_series
    ∧ (∃ cfgs, ("sysbench-oltp", cfgs) ∈ buildReport c5wTree
        ∧ ∃ e, ("fsA", e) ∈ cfgs) := by
  refine ⟨claim_C5_amended.1 ⟨"unknown-bench", []⟩ [] (by decide),
    (claim_C5_amended.2.1 Accum.empty c5MissingRun (Or.inl rfl)).1,
    (claim_C5_amended.2.2.1 Accum.empty c5MissingRun (Or.inl rfl)).2.2,
    (claim_C5_amended.2.2.2.1 Accum.empty c5MissingRun (Or.inl rfl)).2.2,
    (claim_C5_amended.2.2.2.2 c5wTree "sysbench-oltp" "fsA").mpr ?_⟩
  refine ⟨⟨"sysbench-oltp", [⟨"fsA",
    [⟨"run_1", some (some ⟨"", some [("tps", JVal.num 7)], none, none⟩), none, none⟩]⟩]⟩,
    by decide, rfl, by decide, ?_⟩
  exact ⟨⟨"fsA",
    [⟨"run_1", some (some ⟨"", some [("tps", JVal.num 7)], none, none⟩), none, none⟩]⟩,
    by decide, rfl, by decide⟩

/-- C6 (confirmed): in the table group, when the first collected value
for a key is non-numeric, the merged value is that first value unchanged,
whatever the later values are. -/
theorem claim_C6 (m : KV) (k : String) (v : JVal) (rest : List JVal)
    (hnd : keysNodup m) (hv : v.isNum = false)
    (h : List.lookup k m = some (v :: rest)) :
    lookupV (aggregate_table_data m) k = some v := by
  rw [lookupV_aggregate_table_data m k hnd, h, Option.some_bind,
    mergeTableVals_other_head v rest hv]

/-- Witness for C6: the spec scenario — table values
`["randread", "randread"]` merge to the single string `"randread"`. -/
theorem claim_C6_witness :
    lookupV (aggregate_table_data
        [("rw_mode", [JVal.str "randread", JVal.str "randread"])]) "rw_mode"
      = some (JVal.str "randread") :=
  claim_C6 [("rw_mode", [JVal.str "randread", JVal.str "randread"])] "rw_mode"
    (JVal.str "randread") [JVal.str "randread"]
    (by unfold keysNodup; decide) (by decide) (by decide)

theorem collect_docker_pair_eq (runs : List RunDir) :
    (collectRuns runs).docker_plot = (collectRuns runs).docker_table := by
  have haux : ∀ (rs : List RunDir) (acc : Accum), acc.docker_plot = acc.docker_table →
      (rs.foldl processRun acc).docker_plot = (rs.foldl processRun acc).docker_table := by
    intro rs
    induction rs with
    | nil => intro acc h; exact h
    | cons r rs2 ih =>
      intro acc h
      simp only [List.foldl_cons]
      exact ih _ (by simp [processRun_eq, h])
  exact haux runs Accum.empty rfl

theorem collect_monitoring_pair_eq (runs : List RunDir) :
    (collectRuns runs).monitoring_plot = (collectRuns runs).monitoring_table := by
  have haux : ∀ (rs : List RunDir) (acc : Accum),
      acc.monitoring_plot = acc.monitoring_table →
      (rs.foldl processRun acc).monitoring_plot
        = (rs.foldl processRun acc).monitoring_table := by
    intro rs
    induction rs with
    | nil => intro acc h; exact h
    | cons r rs2 ih =>
      intro acc h
      simp only [List.foldl_cons]
      exact ih _ (by simp [processRun_eq, h])
  exact haux runs Accum.empty rfl

/-- C7 (confirmed): for each monitoring source the plot-group and the
table-group accumulators are identical — every scalar the monitoring
adapter produced is appended to both — and at every key the common
accumulated sequence is exactly the sequence of values the runs produced
(docker scalars from the adapter's `plot`, iostat scalars from the
adapter's `table`), so the same sequence feeds both merged mappings. -/
theorem claim_C7 (runs : List RunDir) (k : String) :
    (collectRuns runs).docker_plot = (collectRuns runs).docker_table
    ∧ (collectRuns runs).monitoring_plot = (collectRuns runs).monitoring_table
    ∧ lookupL (collectRuns runs).docker_plot k = collectedAt dockerPlotPairs runs k
    ∧ lookupL (collectRuns runs).monitoring_plot k = collectedAt iostatTablePairs runs k :=
  ⟨collect_docker_pair_eq runs, collect_monitoring_pair_eq runs,
   collect_docker_plot runs k, collect_monitoring_plot runs k⟩

/-- C8 (confirmed): when the result root does not exist, the pass
terminates with exit status 1 and produces no report. -/
theorem claim_C8 : mainAggregate none = Except.error 1 := rfl

theorem parse_single_json_object_series (j : Option IostatJson) :
    (parse_single_json_object j).series = none := by
  cases j with
  | none => rfl
  | some data =>
    obtain ⟨ss⟩ := data
    cases ss with
    | none => rfl
    | some sys =>
      obtain ⟨hosts⟩ := sys
      cases hosts with
      | none => rfl
      | some hl =>
        cases hl with
        | nil => rfl
        | cons host rest =>
          obtain ⟨sn, rl, nn, mc, stats⟩ := host
          cases stats with
          | none => rfl
          | some sl =>
            cases sl with
            | nil => rfl
            | cons s ss2 => rfl

/-- C9 (confirmed): the engine's key roles are opposite for the two
monitoring sources — the iostat representative series is taken from the
adapter's `plot` mapping and its cross-run scalars from the adapter's
`table` mapping, while the docker representative series is taken from
`series` and its scalars from `plot`; and the iostat adapter never emits
a `series` key on any input. -/
theorem claim_C9 :
    (∀ j : Option IostatJson, (parse_single_json_object j).series = none) ∧
    (∀ runs : List RunDir, ((runs.filter fun r => r.name == "run_1").length ≤ 1) →
      (collectRuns runs).iostat_series
          = (runs.find? fun r => r.name == "run_1").bind iostatSeriesOf ∧
      (collectRuns runs).docker_series
          = (runs.find? fun r => r.name == "run_1").bind dockerSeriesOf) ∧
    (∀ (runs : List RunDir) (k : String),
      lookupL (collectRuns runs).monitoring_plot k = collectedAt iostatTablePairs runs k ∧
      lookupL (collectRuns runs).monitoring_table k = collectedAt iostatTablePairs runs k ∧
      lookupL (collectRuns runs).docker_plot k = collectedAt dockerPlotPairs runs k ∧
      lookupL (collectRuns runs).docker_table k = collectedAt dockerPlotPairs runs k) :=
  ⟨parse_single_json_object_series,
   fun runs h => ⟨collect_iostat_series runs h, collect_docker_series runs h⟩,
   fun runs k => ⟨collect_monitoring_plot runs k, collect_monitoring_table runs k,
     collect_docker_plot runs k, collect_docker_table runs k⟩⟩

/-- Witness for C9 at the concrete run list. -/
theorem claim_C9_witness :
    (parse_single_json_object none).series = none
    ∧ ((collectRuns c9wRuns).iostat_series
          = (c9wRuns.find? fun r => r.name == "run_1").bind iostatSeriesOf
       ∧ (collectRuns c9wRuns).docker_series
          = (c9wRuns.find? fun r => r.name == "run_1").bind dockerSeriesOf)
    ∧ (lookupL (collectRuns c9wRuns).monitoring_plot "cpu_user_avg"
          = collectedAt iostatTablePairs c9wRuns "cpu_user_avg"
       ∧ lookupL (collectRuns c9wRuns).monitoring_table "cpu_user_avg"
          = collectedAt iostatTablePairs c9wRuns "cpu_user_avg"
       ∧ lookupL (collectRuns c9wRuns).docker_plot "cpu_perc"
          = collectedAt dockerPlotPairs c9wRuns "cpu_perc"
       ∧ lookupL (collectRuns c9wRuns).docker_table "cpu_perc"
          = collectedAt dockerPlotPairs c9wRuns "cpu_perc") :=
  ⟨claim_C9.1 none, claim_C9.2.1 c9wRuns (by decide),
    ⟨(claim_C9.2.2 c9wRuns "cpu_user_avg").1, (claim_C9.2.2 c9wRuns "cpu_user_avg").2.1,
     (claim_C9.2.2 c9wRuns "cpu_perc").2.2.1, (claim_C9.2.2 c9wRuns "cpu_perc").2.2.2⟩⟩

/-- C10 (confirmed): the merge is total over mixed-type sequences.  In
the plot group non-numeric values are discarded before averaging: a key
whose sequence has no numeric value is omitted (`none`), one numeric
value survives unchanged, and two or more merge to the rounded mean of
the numeric values only.  In the table group, when the first collected
value is numeric the merged value is the rounded mean of the numeric
values only, later non-numeric values being silently ignored. -/
theorem claim_C10 (m : KV) (k : String) (vs : List JVal)
    (hnd : keysNodup m) (h : List.lookup k m = some vs) :
    (numsOf vs = [] → lookupV (calculate_average m) k = none) ∧
    (∀ q : Frac, numsOf vs = [q] → lookupV (calculate_average m) k = some (JVal.num q)) ∧
    (∀ (q q2 : Frac) (rest : List Frac), numsOf vs = q :: q2 :: rest →
        lookupV (calculate_average m) k
          = some (JVal.num (pyRound 4 (qmean (q :: q2 :: rest))))) ∧
    (∀ (q : Frac) (vrest : List JVal), vs = JVal.num q :: vrest →
        lookupV (aggregate_table_data m) k
          = some (JVal.num (pyRound 4 (qmean (numsOf vs))))) := by
  refine ⟨?_, ?_, ?_, ?_⟩
  · intro hq
    rw [lookupV_calculate_average _ _ hnd, h, Option.some_bind]
    simp only [mergePlotVals, hq]
  · intro q hq
    rw [lookupV_calculate_average _ _ hnd, h, Option.some_bind]
    simp only [mergePlotVals, hq]
  · intro q q2 rest hq
    rw [lookupV_calculate_average _ _ hnd, h, Option.some_bind]
    simp only [mergePlotVals, hq]
  · intro q vrest hq
    subst hq
    rw [lookupV_aggregate_table_data _ _ hnd, h, Option.some_bind,
      mergeTableVals_num_head]

/-- Witness for C10 at the concrete mixed inputs. -/
theorem claim_C10_witness :
    lookupV (calculate_average c10m) "j" = none
    ∧ lookupV (calculate_average c10m) "k"
        = some (JVal.num (pyRound 4 (qmean [3, 5])))
    ∧ lookupV (aggregate_table_data c10m) "t"
        = some (JVal.num (pyRound 4 (qmean (numsOf [JVal.num 3, JVal.str "x"])))) := by
  have hnd : keysNodup c10m := by unfold keysNodup; decide
  exact ⟨(claim_C10 c10m "j" [JVal.str "b"] hnd (by decide)).1 (by decide),
    (claim_C10 c10m "k" [JVal.str "a", JVal.num 3, JVal.num 5] hnd (by decide)).2.2.1
      3 5 [] (by decide),
    (claim_C10 c10m "t" [JVal.num 3, JVal.str "x"] hnd (by decide)).2.2.2
      3 [JVal.str "x"] (by decide)⟩

/-- Embedding fidelity check: one full end-to-end evaluation of the
engine on a three-run hierarchy, matching a hand trace of the source. -/
theorem engine_sample_eval :
    buildReport [⟨"sysbench-oltp", [⟨"fsA",
      [⟨"run_1", some (some ⟨"", some [("tps", JVal.num 100)], none, none⟩), none, none⟩,
       ⟨"run_2", some (some ⟨"", some [("tps", JVal.num 110)], none, none⟩), none, none⟩,
       ⟨"run_3", some (some ⟨"", some [("tps", JVal.num 105)], none, none⟩), none, none⟩]⟩]⟩]
    = [("sysbench-oltp", [("fsA",
        ⟨[("tps", JVal.num 105)], [], [], [], [], [], [], []⟩)])] := by decide

/-- Embedding fidelity check: one full evaluation of the iostat adapter
on a two-sample document with a partitioned disk, matching a hand trace
of the source (partition `vdb1` skipped, series padded, 2-decimal
averages). -/
theorem iostat_sample_eval :
    parse_single_json_object (some ⟨some ⟨some [⟨some "Linux", some "6.1", some "host1",
      some "x86",
      some [⟨some ⟨some 10, some 20, some 0, some 70⟩,
              some [⟨some "vdb1", some 5, none, none, none, none, none, none⟩,
                    ⟨some "vdb", some 1, some 2, some 3, some 4, some 5, some 6, some 7⟩]⟩,
            ⟨some ⟨some 30, some 40, some 0, some 30⟩, some []⟩]⟩]⟩⟩)
    = iostatOut "Linux 6.1 (host1) x86"
        [("timestamp", JVal.arr [0, 1]), ("cpu_user", JVal.arr [10, 30]),
         ("cpu_system", JVal.arr [20, 40]), ("cpu_iowait", JVal.arr [0, 0]),
         ("cpu_idle", JVal.arr [70, 30]),
         ("vdb_read_iops", JVal.arr [1, 0]), ("vdb_write_iops", JVal.arr [2, 0]),
         ("vdb_read_kbps", JVal.arr [3, 0]), ("vdb_write_kbps", JVal.arr [4, 0]),
         ("vdb_read_await", JVal.arr [5, 0]), ("vdb_write_await", JVal.arr [6, 0]),
         ("vdb_util", JVal.arr [7, 0])]
        [("cpu_user_avg", JVal.num 20), ("cpu_system_avg", JVal.num 30),
         ("cpu_iowait_avg", JVal.num 0), ("cpu_idle_avg", JVal.num 50),
         ("vdb_read_iops_avg", JVal.num 1), ("vdb_write_iops_avg", JVal.num 2),
         ("vdb_read_kbps_avg", JVal.num 3), ("vdb_write_kbps_avg", JVal.num 4),
         ("vdb_read_await_avg", JVal.num 5), ("vdb_write_await_avg", JVal.num 6),
         ("vdb_util_avg", JVal.num 7)] := by decide
